import Mathlib

/-!
Verification of the GLODAP data-preparation pipeline
(`data import_process/GLODAP/obs_to_model.py` and
`data import_process/GLODAP/GLODAP.py`).

The numpy/pandas code is shallowly embedded over `ℚ`:

* a coordinate axis of a target `xr.DataArray` is a length `n : ℕ`
  together with a value function `v : ℕ → ℚ` (the entries `v 0 .. v (n-1)`
  of the numpy array; indices `≥ n` are junk);
* `make_bins` is the edge-construction helper of
  `match_ungridded_to_gridded`; since `np.diff(dim)` is empty for an axis
  of fewer than two values, `delta[0]` raises `IndexError` there, which is
  modelled by returning `none`;
* `pd.cut` with strictly increasing edges assigns a value `x` to the
  unique left-open right-closed interval `(edge i, edge (i+1)]` containing
  it, or no interval at all (`NaN`); this is modelled by a first-match
  scan `cutFrom`;
* the groupby/agg step is modelled on lists of `(key, value)` pairs, with
  pandas `mean` and `std` (`ddof = 1`, so a singleton group has a missing
  standard deviation); the standard deviation itself is an irrational
  square root, so the embedding computes the sample variance `sampleVar`
  and relates a real number to it through `sampleStdIs`.
-/

/-! ### make_bins (obs_to_model.py, lines 117-123) -/

/-- `delta = np.diff(dim) / 2`, elementwise: `delta i` is defined for
`i + 1 < n` on an axis of length `n`. -/
def delta (v : ℕ → ℚ) (i : ℕ) : ℚ := (v (i + 1) - v i) / 2

/-- The edge array `np.r_[dim[0] - delta[0], dim[1:] - delta, dim[-1] + delta[-1]]`
as a function of the edge position `k` (`0 ≤ k ≤ n`): position `0` is
`dim[0] - delta[0]`, positions `1 .. n-1` come from `dim[1:] - delta`
(entry `k` of the edge array is entry `k - 1` of that difference, namely
`v k - delta v (k-1)`), and position `n` is `dim[-1] + delta[-1]`. -/
def bins (n : ℕ) (v : ℕ → ℚ) (k : ℕ) : ℚ :=
  if k = 0 then v 0 - delta v 0
  else if k < n then v k - delta v (k - 1)
  else v (n - 1) + delta v (n - 2)

/-- `make_bins(dim)`: for an axis of fewer than two values `np.diff` is
empty and `delta[0]` raises `IndexError` (modelled as `none`); otherwise
the `n + 1` edges `bins n v 0 .. bins n v n` are produced. -/
def make_bins (n : ℕ) (v : ℕ → ℚ) : Option (ℕ → ℚ) :=
  if n < 2 then none else some (bins n v)

/-- The edge array spelled out as a list, to state that exactly `n + 1`
edges are produced. -/
def edgeList (n : ℕ) (v : ℕ → ℚ) : List ℚ := (List.range (n + 1)).map (bins n v)

/-- Strict monotonicity of the first `n` entries of an axis, i.e.
`all(np.diff(dim) > 0)`. -/
def strictIncrOn (v : ℕ → ℚ) (n : ℕ) : Prop := ∀ i, i + 1 < n → v i < v (i + 1)

/-- Boolean form of the strict-increase assertion of
`match_ungridded_to_gridded`. -/
def strictIncrB (v : ℕ → ℚ) (n : ℕ) : Bool :=
  (List.range (n - 1)).all fun i => decide (v i < v (i + 1))

theorem bins_zero (n : ℕ) (v : ℕ → ℚ) : bins n v 0 = v 0 - delta v 0 := by
  simp [bins]

theorem bins_mid (n : ℕ) (v : ℕ → ℚ) (k : ℕ) (h0 : k ≠ 0) (h : k < n) :
    bins n v k = v k - delta v (k - 1) := by
  simp [bins, h0, h]

theorem bins_top (n : ℕ) (v : ℕ → ℚ) (k : ℕ) (h0 : k ≠ 0) (h : ¬ k < n) :
    bins n v k = v (n - 1) + delta v (n - 2) := by
  simp [bins, h0, h]

/-- Helper: a pointwise-increasing function is monotone on `0 .. n`. -/
theorem le_of_steps (f : ℕ → ℚ) (n : ℕ) (hstep : ∀ k, k < n → f k < f (k + 1)) :
    ∀ j k, j ≤ k → k ≤ n → f j ≤ f k := by
  intro j k
  induction k with
  | zero =>
    intro hjk _
    have hj : j = 0 := Nat.le_zero.mp hjk
    simp [hj]
  | succ k ih =>
    intro hjk hkn
    rcases Nat.eq_or_lt_of_le hjk with h | h
    · rw [h]
    · exact le_trans (ih (by omega) (by omega)) (le_of_lt (hstep k (by omega)))

/-- Helper: a pointwise-increasing function is strictly monotone on `0 .. n`. -/
theorem lt_of_steps (f : ℕ → ℚ) (n : ℕ) (hstep : ∀ k, k < n → f k < f (k + 1)) :
    ∀ j k, j < k → k ≤ n → f j < f k := by
  intro j k hjk hkn
  have h1 : f j ≤ f (k - 1) := le_of_steps f n hstep j (k - 1) (by omega) (by omega)
  have h2 : f (k - 1) < f (k - 1 + 1) := hstep (k - 1) (by omega)
  rw [Nat.sub_add_cancel (by omega)] at h2
  linarith

/-- Consecutive edges produced by `make_bins` are strictly increasing. -/
theorem bins_step (n : ℕ) (v : ℕ → ℚ) (hn : 2 ≤ n) (hs : strictIncrOn v n) :
    ∀ k, k < n → bins n v k < bins n v (k + 1) := by
  intro k hk
  rcases Nat.eq_zero_or_pos k with hk0 | hk0
  · subst hk0
    rw [bins_zero, bins_mid n v 1 (by omega) (by omega)]
    have h := hs 0 (by omega)
    have e : (1 : ℕ) - 1 = 0 := rfl
    rw [e]
    simp only [delta]
    linarith
  · have e1 : k - 1 + 1 = k := by omega
    have h1 : v (k - 1) < v k := by
      have := hs (k - 1) (by omega); rwa [e1] at this
    by_cases hk2 : k + 1 < n
    · rw [bins_mid n v k (by omega) hk, bins_mid n v (k + 1) (by omega) hk2,
        Nat.add_sub_cancel]
      have h2 : v k < v (k + 1) := hs k (by omega)
      simp only [delta, e1]
      linarith
    · rw [bins_mid n v k (by omega) hk, bins_top n v (k + 1) (by omega) hk2]
      have e2 : n - 1 = k := by omega
      have e3 : n - 2 = k - 1 := by omega
      rw [e2, e3]
      simp only [delta, e1]
      linarith

/-- Every axis value lies strictly inside its own bin. -/
theorem value_inside_own_bin (n : ℕ) (v : ℕ → ℚ) (hn : 2 ≤ n)
    (hs : strictIncrOn v n) :
    ∀ i, i < n → bins n v i < v i ∧ v i < bins n v (i + 1) := by
  intro i hi
  constructor
  · rcases Nat.eq_zero_or_pos i with h0 | h0
    · subst h0
      rw [bins_zero]
      have h := hs 0 (by omega)
      simp only [delta]
      linarith
    · rw [bins_mid n v i (by omega) hi]
      have e1 : i - 1 + 1 = i := by omega
      have h1 : v (i - 1) < v i := by
        have := hs (i - 1) (by omega); rwa [e1] at this
      simp only [delta, e1]
      linarith
  · by_cases hi2 : i + 1 < n
    · rw [bins_mid n v (i + 1) (by omega) hi2, Nat.add_sub_cancel]
      have h2 : v i < v (i + 1) := hs i (by omega)
      simp only [delta]
      linarith
    · rw [bins_top n v (i + 1) (by omega) hi2]
      have e2 : n - 1 = i := by omega
      have e3 : n - 2 + 1 = n - 1 := by omega
      have h1 : v (n - 2) < v (n - 1) := by
        have := hs (n - 2) (by omega); rwa [e3] at this
      simp only [delta, e3, e2] at h1 ⊢
      linarith

/-- The strict order of the full edge list. -/
theorem edgeList_chain (n : ℕ) (v : ℕ → ℚ) (hn : 2 ≤ n) (hs : strictIncrOn v n) :
    List.Chain' (· < ·) (edgeList n v) := by
  rw [edgeList, List.chain'_map]
  rw [show n + 1 = Nat.succ n from rfl, List.chain'_range_succ]
  exact bins_step n v hn hs

/-- An example axis: the target latitude axis `[-1, 0, 1]` of the spec. -/
def latAxisEx : ℕ → ℚ := fun i => (i : ℚ) - 1

theorem latAxisEx_incr : strictIncrOn latAxisEx 3 := by
  intro i hi
  simp only [latAxisEx]
  push_cast
  linarith

/-- C1 (amended: the axis must have at least two values): for every
strictly increasing axis value sequence of length `N ≥ 2`, the edge
construction of `make_bins` produces exactly `N + 1` strictly increasing
edges, with `edge 0 = value 0 - gap 0 / 2`, interior
`edge i = midpoint (value (i-1)) (value i)`, and
`edge N = value (N-1) + lastgap / 2`, and every axis value lies strictly
inside its own bin. -/
theorem C1_edge_construction (n : ℕ) (v : ℕ → ℚ) (hn : 2 ≤ n)
    (hs : strictIncrOn v n) :
    make_bins n v = some (bins n v) ∧
    (edgeList n v).length = n + 1 ∧
    List.Chain' (· < ·) (edgeList n v) ∧
    bins n v 0 = v 0 - delta v 0 ∧
    (∀ i, 0 < i → i < n → bins n v i = (v (i - 1) + v i) / 2) ∧
    bins n v n = v (n - 1) + delta v (n - 2) ∧
    (∀ i, i < n → bins n v i < v i ∧ v i < bins n v (i + 1)) := by
  refine ⟨?_, ?_, edgeList_chain n v hn hs, bins_zero n v, ?_, ?_, value_inside_own_bin n v hn hs⟩
  · simp [make_bins, Nat.not_lt.mpr hn]
  · simp [edgeList]
  · intro i h0 hi
    rw [bins_mid n v i (by omega) hi]
    have e1 : i - 1 + 1 = i := by omega
    simp only [delta, e1]
    ring
  · rw [bins_top n v n (by omega) (by omega)]

/-- C1 counterexample: a one-value axis is strictly increasing (there are
no consecutive pairs to violate it, so the assertions of the matcher pass),
yet `make_bins` raises `IndexError` on it (`np.diff` is empty, so
`delta[0]` is out of bounds); it does not produce `N + 1 = 2` edges. -/
theorem C1_counterexample :
    strictIncrOn (fun _ => (0 : ℚ)) 1 ∧ make_bins 1 (fun _ => (0 : ℚ)) = none := by
  constructor
  · intro i hi
    exact absurd hi (by omega)
  · simp [make_bins]

/-! ### pd.cut (obs_to_model.py, lines 130-134)

`pd.cut(xs, bins, labels=range(n))` with strictly increasing edges assigns
a value `x` the label `i` of the unique left-open right-closed interval
`(bins i, bins (i+1)]` containing `x`, and `NaN` (here `none`) when `x`
falls outside all intervals.  `cutFrom` scans the `nbins` intervals in
order and returns the first (for strictly increasing edges: the unique)
containing interval. -/

def cutFrom (e : ℕ → ℚ) (x : ℚ) : ℕ → ℕ → Option ℕ
  | _, 0 => none
  | i, rem + 1 =>
    if e i < x ∧ x ≤ e (i + 1) then some i else cutFrom e x (i + 1) rem

/-- The bin index `pd.cut` assigns to `x` among the `nbins` intervals
delimited by the edges `e 0 .. e nbins`. -/
def cutIndex (e : ℕ → ℚ) (nbins : ℕ) (x : ℚ) : Option ℕ := cutFrom e x 0 nbins

theorem cutFrom_eq_none (e : ℕ → ℚ) (x : ℚ) :
    ∀ rem i, (∀ j, i ≤ j → j < i + rem → ¬(e j < x ∧ x ≤ e (j + 1))) →
      cutFrom e x i rem = none := by
  intro rem
  induction rem with
  | zero => intro i _; rfl
  | succ rem ih =>
    intro i h
    simp only [cutFrom]
    rw [if_neg (h i (le_refl i) (by omega))]
    exact ih (i + 1) fun j hj1 hj2 => h j (by omega) (by omega)

theorem cutFrom_eq_some (e : ℕ → ℚ) (x : ℚ) :
    ∀ rem i k, i ≤ k → k < i + rem → (e k < x ∧ x ≤ e (k + 1)) →
      (∀ j, i ≤ j → j < k → ¬(e j < x ∧ x ≤ e (j + 1))) →
      cutFrom e x i rem = some k := by
  intro rem
  induction rem with
  | zero => intro i k h1 h2 _ _; omega
  | succ rem ih =>
    intro i k hik hk hp hmin
    simp only [cutFrom]
    rcases Nat.eq_or_lt_of_le hik with he | hlt
    · subst he
      rw [if_pos hp]
    · rw [if_neg (hmin i (le_refl i) hlt)]
      exact ih (i + 1) k (by omega) (by omega) hp fun j h1 h2 => hmin j (by omega) h2

theorem cutIndex_eq_some (e : ℕ → ℚ) (nbins : ℕ) (x : ℚ) (k : ℕ)
    (hk : k < nbins) (hp : e k < x ∧ x ≤ e (k + 1))
    (hmin : ∀ j, j < k → ¬(e j < x ∧ x ≤ e (j + 1))) :
    cutIndex e nbins x = some k :=
  cutFrom_eq_some e x nbins 0 k (Nat.zero_le k) (by omega) hp
    fun j _ h2 => hmin j h2

theorem cutIndex_eq_none (e : ℕ → ℚ) (nbins : ℕ) (x : ℚ)
    (h : ∀ j, j < nbins → ¬(e j < x ∧ x ≤ e (j + 1))) :
    cutIndex e nbins x = none :=
  cutFrom_eq_none e x nbins 0 fun j _ h2 => h j (by omega)

/-! ### groupby / agg (obs_to_model.py, lines 136-143)

A row surviving the cut has an integer key `(it, iy, ix)`; pandas
`groupby` drops every row whose key contains `NaN` and aggregates each
observed group with `mean` and `std` (`ddof = 1`). -/

abbrev BinKey := ℕ × ℕ × ℕ

/-- One ungridded input point: `(variable, time, lat, lon)`.  The parallel
input arrays of `match_ungridded_to_gridded` are bundled pointwise. -/
structure Point where
  val : ℚ
  t : ℚ
  lat : ℚ
  lon : ℚ
  deriving DecidableEq, Repr

/-- The `(tidx, yidx, xidx)` key of a point; `none` when the point falls
outside the bins on any axis (its `pd.cut` label is `NaN`, so `groupby`
drops the row). -/
def keyOf (nt : ℕ) (tb : ℕ → ℚ) (ny : ℕ) (yb : ℕ → ℚ) (nx : ℕ) (xb : ℕ → ℚ)
    (p : Point) : Option BinKey :=
  match cutIndex tb nt p.t, cutIndex yb ny p.lat, cutIndex xb nx p.lon with
  | some it, some iy, some ix => some (it, iy, ix)
  | _, _, _ => none

/-- The keyed rows entering the `groupby`: points with a full integer key,
paired with their value. -/
def keyedRows (nt : ℕ) (tb : ℕ → ℚ) (ny : ℕ) (yb : ℕ → ℚ) (nx : ℕ)
    (xb : ℕ → ℚ) (ps : List Point) : List (BinKey × ℚ) :=
  ps.filterMap fun p => (keyOf nt tb ny yb nx xb p).map fun k => (k, p.val)

/-- The members of the group with key `k`. -/
def groupValues (rows : List (BinKey × ℚ)) (k : BinKey) : List ℚ :=
  (rows.filter fun r => decide (r.1 = k)).map Prod.snd

/-- The observed group keys. -/
def keysOf (rows : List (BinKey × ℚ)) : List BinKey := (rows.map Prod.fst).dedup

/-- pandas `mean` of a group (a group is never empty, and an empty mean
would be `NaN`). -/
def mean (xs : List ℚ) : Option ℚ :=
  if xs = [] then none else some (xs.sum / xs.length)

/-- The square of pandas `std` of a group: the sample variance with
`N - 1` denominator; `NaN` (`none`) for groups of fewer than two values. -/
def sampleVar (xs : List ℚ) : Option ℚ :=
  if xs.length < 2 then none
  else some ((xs.map fun x => (x - xs.sum / xs.length) ^ 2).sum / ((xs.length : ℚ) - 1))

/-- `s` is the sample standard deviation of `xs`: the nonnegative real
square root of the sample variance. -/
def sampleStdIs (xs : List ℚ) (s : ℝ) : Prop :=
  ∃ w, sampleVar xs = some w ∧ 0 ≤ s ∧ s ^ 2 = (w : ℝ)

/-- `.groupby([tidx, yidx, xidx]).agg(['mean', 'std'])`: one output row
per observed key, holding the group's mean and (squared) std. -/
def aggregate (rows : List (BinKey × ℚ)) : List (BinKey × Option ℚ × Option ℚ) :=
  (keysOf rows).map fun k =>
    (k, mean (groupValues rows k), sampleVar (groupValues rows k))

/-! ### match_ungridded_to_gridded (obs_to_model.py, lines 63-163)

The target `xr.DataArray` is its three coordinate axes
`(nt, t), (ny, y), (nx, x)`; the dtype check
`np.issubdtype(time, np.datetime64)` concerns the representation of the
input `time` array, which the embedding carries as the flag
`timeIsDatetime64`.  An `assert` failure and the `IndexError` of
`make_bins` on a short axis are `Except.error`. -/

def match_ungridded_to_gridded (timeIsDatetime64 : Bool) (ps : List Point)
    (nt : ℕ) (t : ℕ → ℚ) (ny : ℕ) (y : ℕ → ℚ) (nx : ℕ) (x : ℕ → ℚ) :
    Except String (List (BinKey × Option ℚ × Option ℚ)) :=
  if !strictIncrB t nt then .error "time is not strictly increasing"
  else if !strictIncrB y ny then .error "latitude is not strictly increasing"
  else if !strictIncrB x nx then .error "latitude is not strictly increasing"
  else if !timeIsDatetime64 then .error "time must be in datetime64 format"
  else
    match make_bins nt t, make_bins ny y, make_bins nx x with
    | some tb, some yb, some xb => .ok (aggregate (keyedRows nt tb ny yb nx xb ps))
    | _, _, _ => .error "IndexError"

/-- Witness for `C1_edge_construction` at the axis `[-1, 0, 1]`. -/
theorem C1_edge_construction_witness :
    (2 ≤ 3 ∧ strictIncrOn latAxisEx 3) ∧
    (make_bins 3 latAxisEx = some (bins 3 latAxisEx) ∧
      (edgeList 3 latAxisEx).length = 3 + 1 ∧
      List.Chain' (· < ·) (edgeList 3 latAxisEx) ∧
      bins 3 latAxisEx 0 = latAxisEx 0 - delta latAxisEx 0 ∧
      (∀ i, 0 < i → i < 3 → bins 3 latAxisEx i = (latAxisEx (i - 1) + latAxisEx i) / 2) ∧
      bins 3 latAxisEx 3 = latAxisEx (3 - 1) + delta latAxisEx (3 - 2) ∧
      (∀ i, i < 3 → bins 3 latAxisEx i < latAxisEx i ∧ latAxisEx i < bins 3 latAxisEx (i + 1))) :=
  ⟨⟨by norm_num, latAxisEx_incr⟩, C1_edge_construction 3 latAxisEx (by norm_num) latAxisEx_incr⟩

/-- C2: a point whose coordinate equals a target-axis value exactly is
assigned the index of that axis value by the nearest-bin assignment, and
in particular for the axis `[-1, 0, 1]` (edges `[-1.5, -0.5, 0.5, 1.5]`)
a point at `0.4` is assigned index `1`, the bin of axis value `0`. -/
theorem C2_exact_value_assignment (n : ℕ) (v : ℕ → ℚ) (hn : 2 ≤ n)
    (hs : strictIncrOn v n) (i : ℕ) (hi : i < n) :
    cutIndex (bins n v) n (v i) = some i ∧
    cutIndex (bins 3 latAxisEx) 3 (2 / 5) = some 1 := by
  constructor
  · apply cutIndex_eq_some (bins n v) n (v i) i hi
    · have h := value_inside_own_bin n v hn hs i hi
      exact ⟨h.1, le_of_lt h.2⟩
    · intro j hj hcon
      have hmono : bins n v (j + 1) ≤ bins n v i :=
        le_of_steps (bins n v) n (bins_step n v hn hs) (j + 1) i (by omega) (by omega)
      have hlow := (value_inside_own_bin n v hn hs i hi).1
      linarith [hcon.2]
  · norm_num [cutIndex, cutFrom, bins, delta, latAxisEx]

/-- Witness for `C2_exact_value_assignment`: the axis `[-1, 0, 1]` and its
own value `0` at index `1`. -/
theorem C2_exact_value_assignment_witness :
    (2 ≤ 3 ∧ strictIncrOn latAxisEx 3 ∧ 1 < 3) ∧
    (cutIndex (bins 3 latAxisEx) 3 (latAxisEx 1) = some 1 ∧
      cutIndex (bins 3 latAxisEx) 3 (2 / 5) = some 1) :=
  ⟨⟨by norm_num, latAxisEx_incr, by norm_num⟩,
    C2_exact_value_assignment 3 latAxisEx (by norm_num) latAxisEx_incr 1 (by norm_num)⟩

/-- C6: bins are left-open and right-closed: a point exactly on an
interior edge goes to the lower-index axis value, a point exactly on the
lowest outer edge is dropped (`none`), and a point exactly on the highest
outer edge goes to the last index. -/
theorem C6_half_open_bins (n : ℕ) (v : ℕ → ℚ) (hn : 2 ≤ n)
    (hs : strictIncrOn v n) :
    (∀ i, 1 ≤ i → i < n → cutIndex (bins n v) n (bins n v i) = some (i - 1)) ∧
    cutIndex (bins n v) n (bins n v 0) = none ∧
    cutIndex (bins n v) n (bins n v n) = some (n - 1) := by
  have hstep := bins_step n v hn hs
  have hmono := le_of_steps (bins n v) n hstep
  refine ⟨?_, ?_, ?_⟩
  · intro i h1 hi
    have e : i - 1 + 1 = i := by omega
    apply cutIndex_eq_some (bins n v) n (bins n v i) (i - 1) (by omega)
    · refine ⟨?_, ?_⟩
      · have := hstep (i - 1) (by omega); rwa [e] at this
      · rw [e]
    · intro j hj hcon
      have h2 : bins n v (j + 1) ≤ bins n v (i - 1) := hmono (j + 1) (i - 1) (by omega) (by omega)
      have h3 : bins n v (i - 1) < bins n v i := by
        have := hstep (i - 1) (by omega); rwa [e] at this
      linarith [hcon.2]
  · apply cutIndex_eq_none
    intro j hj hcon
    have : bins n v 0 ≤ bins n v j := hmono 0 j (by omega) (by omega)
    linarith [hcon.1]
  · have e : n - 1 + 1 = n := by omega
    apply cutIndex_eq_some (bins n v) n (bins n v n) (n - 1) (by omega)
    · refine ⟨?_, ?_⟩
      · have := hstep (n - 1) (by omega); rwa [e] at this
      · rw [e]
    · intro j hj hcon
      have h2 : bins n v (j + 1) ≤ bins n v (n - 1) := hmono (j + 1) (n - 1) (by omega) (by omega)
      have h3 : bins n v (n - 1) < bins n v n := by
        have := hstep (n - 1) (by omega); rwa [e] at this
      linarith [hcon.2]

/-- Witness for `C6_half_open_bins` at the axis `[-1, 0, 1]`. -/
theorem C6_half_open_bins_witness :
    (2 ≤ 3 ∧ strictIncrOn latAxisEx 3) ∧
    ((∀ i, 1 ≤ i → i < 3 →
        cutIndex (bins 3 latAxisEx) 3 (bins 3 latAxisEx i) = some (i - 1)) ∧
      cutIndex (bins 3 latAxisEx) 3 (bins 3 latAxisEx 0) = none ∧
      cutIndex (bins 3 latAxisEx) 3 (bins 3 latAxisEx 3) = some (3 - 1)) :=
  ⟨⟨by norm_num, latAxisEx_incr⟩,
    C6_half_open_bins 3 latAxisEx (by norm_num) latAxisEx_incr⟩

/-- C4: the matcher fails fast: a target frame with a non-strictly
increasing time, lat or lon axis, or an input time array that is not
`datetime64`, makes `match_ungridded_to_gridded` return an assertion
error, before any bin assignment or output is produced. -/
theorem C4_fail_fast (timeIsDt64 : Bool) (ps : List Point) (nt : ℕ)
    (t : ℕ → ℚ) (ny : ℕ) (y : ℕ → ℚ) (nx : ℕ) (x : ℕ → ℚ)
    (h : strictIncrB t nt = false ∨ strictIncrB y ny = false ∨
      strictIncrB x nx = false ∨ timeIsDt64 = false) :
    ∃ msg, match_ungridded_to_gridded timeIsDt64 ps nt t ny y nx x =
      Except.error msg := by
  cases h1 : strictIncrB t nt with
  | false =>
    exact ⟨"time is not strictly increasing", by simp [match_ungridded_to_gridded, h1]⟩
  | true =>
    cases h2 : strictIncrB y ny with
    | false =>
      exact ⟨"latitude is not strictly increasing", by simp [match_ungridded_to_gridded, h1, h2]⟩
    | true =>
      cases h3 : strictIncrB x nx with
      | false =>
        exact ⟨"latitude is not strictly increasing", by simp [match_ungridded_to_gridded, h1, h2, h3]⟩
      | true =>
        cases h4 : timeIsDt64 with
        | false =>
          exact ⟨"time must be in datetime64 format", by simp [match_ungridded_to_gridded, h1, h2, h3, h4]⟩
        | true => simp [h1, h2, h3, h4] at h

/-- Witness for `C4_fail_fast`: a target frame whose lat axis is constant. -/
theorem C4_fail_fast_witness :
    strictIncrB (fun _ => (0 : ℚ)) 2 = false ∧
    ∃ msg, match_ungridded_to_gridded true [] 2 (fun i => (i : ℚ)) 2
      (fun _ => (0 : ℚ)) 2 (fun i => (i : ℚ)) = Except.error msg := by
  have hy : strictIncrB (fun _ => (0 : ℚ)) 2 = false := by
    simp [strictIncrB]
  exact ⟨hy, C4_fail_fast true [] 2 (fun i => (i : ℚ)) 2 (fun _ => (0 : ℚ)) 2
    (fun i => (i : ℚ)) (Or.inr (Or.inl hy))⟩

/-- A value outside the outermost edges of a monotone edge array gets no
bin from `pd.cut`. -/
theorem cutIndex_out_of_range (m : ℕ) (e : ℕ → ℚ)
    (hmono : ∀ j k, j ≤ k → k ≤ m → e j ≤ e k)
    (x : ℚ) (hout : x ≤ e 0 ∨ e m < x) : cutIndex e m x = none := by
  apply cutIndex_eq_none
  intro j hj hcon
  rcases hout with h | h
  · have : e 0 ≤ e j := hmono 0 j (by omega) (by omega)
    linarith [hcon.1]
  · have : e (j + 1) ≤ e m := hmono (j + 1) m (by omega) (by omega)
    linarith [hcon.2]

/-- A point with a missing bin index on any one of the three axes gets no
groupby key at all. -/
theorem keyOf_eq_none (nt : ℕ) (tb : ℕ → ℚ) (ny : ℕ) (yb : ℕ → ℚ)
    (nx : ℕ) (xb : ℕ → ℚ) (p : Point)
    (h : cutIndex tb nt p.t = none ∨ cutIndex yb ny p.lat = none ∨
      cutIndex xb nx p.lon = none) :
    keyOf nt tb ny yb nx xb p = none := by
  simp only [keyOf]
  rcases ht : cutIndex tb nt p.t with _ | it <;>
    rcases hy2 : cutIndex yb ny p.lat with _ | iy <;>
      rcases hx2 : cutIndex xb nx p.lon with _ | ix <;>
        simp_all

/-- C5: a point falling outside the outermost bin edges of any one of the
three axes (time edges `tb 0 .. tb nt`, lat edges `yb 0 .. yb ny`, lon
edges `xb 0 .. xb nx`) gets no bin index on that axis, hence no groupby
key, and is silently dropped from the keyed rows: it contributes to no
group and so to no cell mean or std, and no error is raised. -/
theorem C5_out_of_range_dropped
    (nt : ℕ) (tb : ℕ → ℚ) (ny : ℕ) (yb : ℕ → ℚ) (nx : ℕ) (xb : ℕ → ℚ)
    (hmt : ∀ j k, j ≤ k → k ≤ nt → tb j ≤ tb k)
    (hmy : ∀ j k, j ≤ k → k ≤ ny → yb j ≤ yb k)
    (hmx : ∀ j k, j ≤ k → k ≤ nx → xb j ≤ xb k)
    (p : Point)
    (hout : (p.t ≤ tb 0 ∨ tb nt < p.t) ∨ (p.lat ≤ yb 0 ∨ yb ny < p.lat) ∨
      (p.lon ≤ xb 0 ∨ xb nx < p.lon))
    (ps : List Point) :
    (cutIndex tb nt p.t = none ∨ cutIndex yb ny p.lat = none ∨
      cutIndex xb nx p.lon = none) ∧
    keyOf nt tb ny yb nx xb p = none ∧
    keyedRows nt tb ny yb nx xb (p :: ps) = keyedRows nt tb ny yb nx xb ps ∧
    aggregate (keyedRows nt tb ny yb nx xb (p :: ps))
      = aggregate (keyedRows nt tb ny yb nx xb ps) := by
  have hcut : cutIndex tb nt p.t = none ∨ cutIndex yb ny p.lat = none ∨
      cutIndex xb nx p.lon = none := by
    rcases hout with h | h | h
    · exact Or.inl (cutIndex_out_of_range nt tb hmt p.t h)
    · exact Or.inr (Or.inl (cutIndex_out_of_range ny yb hmy p.lat h))
    · exact Or.inr (Or.inr (cutIndex_out_of_range nx xb hmx p.lon h))
  have hkey : keyOf nt tb ny yb nx xb p = none :=
    keyOf_eq_none nt tb ny yb nx xb p hcut
  have hrows : keyedRows nt tb ny yb nx xb (p :: ps)
      = keyedRows nt tb ny yb nx xb ps := by
    simp [keyedRows, List.filterMap_cons, hkey]
  exact ⟨hcut, hkey, hrows, by rw [hrows]⟩

/-- The spec's out-of-range example point: value 10 at `lat = -2`, below
the lowest lat edge `-1.5` of the axis `[-1, 0, 1]`. -/
def pointEx : Point := { val := 10, t := 0, lat := -2, lon := 0 }

/-- Witness for `C5_out_of_range_dropped`: all three axes `[-1, 0, 1]`,
point at `lat = -2`. -/
theorem C5_out_of_range_dropped_witness :
    ((pointEx.t ≤ bins 3 latAxisEx 0 ∨ bins 3 latAxisEx 3 < pointEx.t) ∨
      (pointEx.lat ≤ bins 3 latAxisEx 0 ∨ bins 3 latAxisEx 3 < pointEx.lat) ∨
      (pointEx.lon ≤ bins 3 latAxisEx 0 ∨ bins 3 latAxisEx 3 < pointEx.lon)) ∧
    ((cutIndex (bins 3 latAxisEx) 3 pointEx.t = none ∨
        cutIndex (bins 3 latAxisEx) 3 pointEx.lat = none ∨
        cutIndex (bins 3 latAxisEx) 3 pointEx.lon = none) ∧
      keyOf 3 (bins 3 latAxisEx) 3 (bins 3 latAxisEx) 3 (bins 3 latAxisEx) pointEx = none ∧
      keyedRows 3 (bins 3 latAxisEx) 3 (bins 3 latAxisEx) 3 (bins 3 latAxisEx) (pointEx :: [])
        = keyedRows 3 (bins 3 latAxisEx) 3 (bins 3 latAxisEx) 3 (bins 3 latAxisEx) [] ∧
      aggregate (keyedRows 3 (bins 3 latAxisEx) 3 (bins 3 latAxisEx) 3 (bins 3 latAxisEx)
          (pointEx :: []))
        = aggregate (keyedRows 3 (bins 3 latAxisEx) 3 (bins 3 latAxisEx) 3 (bins 3 latAxisEx) [])) :=
  have hmono : ∀ j k, j ≤ k → k ≤ 3 → bins 3 latAxisEx j ≤ bins 3 latAxisEx k :=
    le_of_steps (bins 3 latAxisEx) 3 (bins_step 3 latAxisEx (by norm_num) latAxisEx_incr)
  have hout : (pointEx.t ≤ bins 3 latAxisEx 0 ∨ bins 3 latAxisEx 3 < pointEx.t) ∨
      (pointEx.lat ≤ bins 3 latAxisEx 0 ∨ bins 3 latAxisEx 3 < pointEx.lat) ∨
      (pointEx.lon ≤ bins 3 latAxisEx 0 ∨ bins 3 latAxisEx 3 < pointEx.lon) :=
    Or.inr (Or.inl (Or.inl (by norm_num [pointEx, bins, delta, latAxisEx])))
  ⟨hout,
    C5_out_of_range_dropped 3 (bins 3 latAxisEx) 3 (bins 3 latAxisEx) 3 (bins 3 latAxisEx)
      hmono hmono hmono pointEx hout []⟩

/-- C3: the aggregation emits, for every observed key, the arithmetic mean
and the sample standard deviation (`N - 1` denominator) of the group's
values; a singleton group has its one observation as mean and a missing
std; a group of two identical observations has std exactly zero. -/
theorem C3_group_aggregation (rows : List (BinKey × ℚ)) (k : BinKey)
    (hk : k ∈ keysOf rows) :
    (k, mean (groupValues rows k), sampleVar (groupValues rows k)) ∈ aggregate rows ∧
    (groupValues rows k ≠ [] →
      mean (groupValues rows k)
        = some ((groupValues rows k).sum / (groupValues rows k).length)) ∧
    (∀ a, groupValues rows k = [a] →
      mean (groupValues rows k) = some a ∧ sampleVar (groupValues rows k) = none) ∧
    (∀ a, groupValues rows k = [a, a] →
      sampleVar (groupValues rows k) = some 0 ∧ sampleStdIs (groupValues rows k) 0) := by
  refine ⟨List.mem_map.mpr ⟨k, hk, rfl⟩, ?_, ?_, ?_⟩
  · intro h
    simp [mean, h]
  · intro a ha
    rw [ha]
    constructor
    · simp [mean]
    · simp [sampleVar]
  · intro a ha
    rw [ha]
    have hv : sampleVar [a, a] = some 0 := by
      simp only [sampleVar, List.length_cons, List.length_nil]
      norm_num
    exact ⟨hv, 0, hv, le_refl 0, by norm_num⟩

/-- Witness for `C3_group_aggregation`: two identical observations of `10`
in the cell `(0, 0, 0)`. -/
theorem C3_group_aggregation_witness :
    ((0, 0, 0) ∈ keysOf [((0, 0, 0), 10), ((0, 0, 0), 10)]) ∧
    (((0, 0, 0), mean (groupValues [((0, 0, 0), 10), ((0, 0, 0), 10)] (0, 0, 0)),
        sampleVar (groupValues [((0, 0, 0), 10), ((0, 0, 0), 10)] (0, 0, 0)))
        ∈ aggregate [((0, 0, 0), 10), ((0, 0, 0), 10)] ∧
      (groupValues [((0, 0, 0), 10), ((0, 0, 0), 10)] (0, 0, 0) ≠ [] →
        mean (groupValues [((0, 0, 0), 10), ((0, 0, 0), 10)] (0, 0, 0))
          = some ((groupValues [((0, 0, 0), 10), ((0, 0, 0), 10)] (0, 0, 0)).sum /
              (groupValues [((0, 0, 0), 10), ((0, 0, 0), 10)] (0, 0, 0)).length)) ∧
      (∀ a, groupValues [((0, 0, 0), 10), ((0, 0, 0), 10)] (0, 0, 0) = [a] →
        mean (groupValues [((0, 0, 0), 10), ((0, 0, 0), 10)] (0, 0, 0)) = some a ∧
          sampleVar (groupValues [((0, 0, 0), 10), ((0, 0, 0), 10)] (0, 0, 0)) = none) ∧
      (∀ a, groupValues [((0, 0, 0), 10), ((0, 0, 0), 10)] (0, 0, 0) = [a, a] →
        sampleVar (groupValues [((0, 0, 0), 10), ((0, 0, 0), 10)] (0, 0, 0)) = some 0 ∧
          sampleStdIs (groupValues [((0, 0, 0), 10), ((0, 0, 0), 10)] (0, 0, 0)) 0)) :=
  have hk : ((0, 0, 0) : BinKey) ∈ keysOf [((0, 0, 0), 10), ((0, 0, 0), 10)] := by
    simp [keysOf]
  ⟨hk, C3_group_aggregation [((0, 0, 0), 10), ((0, 0, 0), 10)] (0, 0, 0) hk⟩

/-! ### create_monthly_mask / create_monthly_mask2 (obs_to_model.py, lines 6-61)

`np.arange(start, stop, step)` (positive step) has
`⌈(stop - start) / step⌉` entries `start + i * step`.  The time axis is
`pd.date_range(start, end, freq='MS') + np.timedelta64(14, 'D')`: the
first days of the calendar months from the start month to the end month,
each shifted forward by 14 days.  Dates are concrete
(year, month, day) triples with real calendar month lengths, so the
14-day shift is genuine day arithmetic, not a assumption that it lands on
the 15th. -/

def arange (start stop step : ℚ) : List ℚ :=
  (List.range (((stop - start) / step).ceil.toNat)).map fun i : ℕ =>
    start + (i : ℚ) * step

theorem arange_length (s e st : ℚ) :
    (arange s e st).length = ((e - s) / st).ceil.toNat := by
  rw [arange, List.length_map, List.length_range]

theorem arange_getD (s e st : ℚ) (i : ℕ) (h : i < ((e - s) / st).ceil.toNat) :
    (arange s e st).getD i 0 = s + i * st := by
  rw [arange, List.getD_eq_getElem?_getD, List.getElem?_map, List.getElem?_range h]
  rfl

/-- Gregorian leap years, as numpy datetime64 day arithmetic uses them. -/
def isLeap (y : ℕ) : Bool := (y % 4 == 0 && y % 100 != 0) || y % 400 == 0

def daysInMonth (y m : ℕ) : ℕ :=
  if m = 2 then (if isLeap y then 29 else 28)
  else if m = 4 ∨ m = 6 ∨ m = 9 ∨ m = 11 then 30 else 31

/-- A calendar date (the time-of-day parts play no role in the claims). -/
structure Date where
  year : ℕ
  month : ℕ
  day : ℕ
  deriving DecidableEq, Repr

def nextDay (d : Date) : Date :=
  if d.day < daysInMonth d.year d.month then ⟨d.year, d.month, d.day + 1⟩
  else if d.month < 12 then ⟨d.year, d.month + 1, 1⟩
  else ⟨d.year + 1, 1, 1⟩

def addDays : ℕ → Date → Date
  | 0, d => d
  | n + 1, d => addDays n (nextDay d)

/-- A year-month, as parsed from a `'YYYY-MM'` date string. -/
structure YM where
  year : ℕ
  month : ℕ
  deriving DecidableEq, Repr

/-- Months since year 0 (month is 1-based). -/
def totalMonths (a : YM) : ℕ := 12 * a.year + (a.month - 1)

def ofTotalMonths (n : ℕ) : YM := ⟨n / 12, n % 12 + 1⟩

/-- `pd.date_range(start, end, freq='MS')`, as the list of calendar
months from `a` to `b` inclusive (empty when `a` is after `b`). -/
def dateRangeMS (a b : YM) : List YM :=
  if totalMonths a ≤ totalMonths b then
    (List.range (totalMonths b - totalMonths a + 1)).map fun i =>
      ofTotalMonths (totalMonths a + i)
  else []

/-- An `xr.DataArray` with `time`, `lat`, `lon` coordinates and a data
cube addressed by the three indices. -/
structure Mask where
  time : List Date
  lat : List ℚ
  lon : List ℚ
  data : ℕ → ℕ → ℕ → ℚ

/-- `create_monthly_mask(dates)` (0-360 longitude convention):
`lon = np.arange(0.5, 360, 1)`, `lat = np.arange(-89.5, 90, 1)`,
`time = date_range(MS) + 14 days`, data `np.zeros`. -/
def create_monthly_mask (a b : YM) : Mask :=
  { lon := arange (1 / 2) 360 1
    lat := arange (-(179 / 2)) 90 1
    time := (dateRangeMS a b).map fun ym => addDays 14 ⟨ym.year, ym.month, 1⟩
    data := fun _ _ _ => 0 }

/-- `create_monthly_mask2(dates)` (-180-180 longitude convention):
`lon = np.arange(-179.5, 180, 1)`, otherwise as `create_monthly_mask`. -/
def create_monthly_mask2 (a b : YM) : Mask :=
  { lon := arange (-(359 / 2)) 180 1
    lat := arange (-(179 / 2)) 90 1
    time := (dateRangeMS a b).map fun ym => addDays 14 ⟨ym.year, ym.month, 1⟩
    data := fun _ _ _ => 0 }

theorem daysInMonth_ge (y m : ℕ) : 28 ≤ daysInMonth y m := by
  unfold daysInMonth
  split_ifs <;> norm_num

/-- Day arithmetic that stays inside one month. -/
theorem addDays_within (y m : ℕ) :
    ∀ n d, 1 ≤ d → d + n ≤ daysInMonth y m →
      addDays n ⟨y, m, d⟩ = ⟨y, m, d + n⟩ := by
  intro n
  induction n with
  | zero => intro d _ _; rfl
  | succ n ih =>
    intro d h1 h2
    rw [addDays]
    have hd : d < daysInMonth y m := by omega
    have hnext : nextDay ⟨y, m, d⟩ = ⟨y, m, d + 1⟩ := by
      simp [nextDay, hd]
    rw [hnext, ih (d + 1) (by omega) (by omega)]
    have : d + 1 + n = d + (n + 1) := by omega
    rw [this]

/-- The first of any month shifted by 14 days is the 15th of that month. -/
theorem addDays_14_first (y m : ℕ) : addDays 14 ⟨y, m, 1⟩ = ⟨y, m, 15⟩ := by
  have h := addDays_within y m 14 1 (le_refl 1) (by linarith [daysInMonth_ge y m])
  simpa using h

theorem dateRangeMS_length (a b : YM) (h : totalMonths a ≤ totalMonths b) :
    (dateRangeMS a b).length = totalMonths b - totalMonths a + 1 := by
  rw [dateRangeMS, if_pos h, List.length_map, List.length_range]

theorem dateRangeMS_getD (a b : YM) (i : ℕ) (h : totalMonths a ≤ totalMonths b)
    (hi : i < totalMonths b - totalMonths a + 1) :
    (dateRangeMS a b).getD i ⟨0, 0⟩ = ofTotalMonths (totalMonths a + i) := by
  rw [dateRangeMS, if_pos h, List.getD_eq_getElem?_getD, List.getElem?_map,
    List.getElem?_range hi]
  rfl

theorem dateRangeMS_getElem (a b : YM) (i : ℕ) (h : totalMonths a ≤ totalMonths b)
    (hi : i < totalMonths b - totalMonths a + 1) :
    (dateRangeMS a b)[i]? = some (ofTotalMonths (totalMonths a + i)) := by
  rw [dateRangeMS, if_pos h, List.getElem?_map, List.getElem?_range hi]
  rfl

/-- C7: both template builders produce a longitude axis of 360 strictly
increasing 1-degree centers (starting at 0.5 under the 0-360 convention,
at -179.5 under the -180-180 convention), a latitude axis of 180 strictly
increasing 1-degree centers from -89.5 to 89.5, a time axis with one
entry per calendar month from the start month to the end month inclusive,
each stamped on the 15th of its month, and all cells initialized to zero
rather than missing. -/
theorem C7_monthly_mask (a b : YM) (hab : totalMonths a ≤ totalMonths b) :
    ((create_monthly_mask a b).lon.length = 360 ∧
      (∀ i, i < 360 → (create_monthly_mask a b).lon.getD i 0 = 1 / 2 + i) ∧
      (∀ i, i + 1 < 360 → (create_monthly_mask a b).lon.getD i 0
        < (create_monthly_mask a b).lon.getD (i + 1) 0)) ∧
    ((create_monthly_mask2 a b).lon.length = 360 ∧
      (∀ i, i < 360 → (create_monthly_mask2 a b).lon.getD i 0 = -(359 / 2) + i) ∧
      (∀ i, i + 1 < 360 → (create_monthly_mask2 a b).lon.getD i 0
        < (create_monthly_mask2 a b).lon.getD (i + 1) 0)) ∧
    ((create_monthly_mask a b).lat.length = 180 ∧
      (create_monthly_mask2 a b).lat = (create_monthly_mask a b).lat ∧
      (∀ i, i < 180 → (create_monthly_mask a b).lat.getD i 0 = -(179 / 2) + i) ∧
      (∀ i, i + 1 < 180 → (create_monthly_mask a b).lat.getD i 0
        < (create_monthly_mask a b).lat.getD (i + 1) 0)) ∧
    ((create_monthly_mask a b).time.length = totalMonths b - totalMonths a + 1 ∧
      (create_monthly_mask2 a b).time = (create_monthly_mask a b).time ∧
      ∀ i, i < totalMonths b - totalMonths a + 1 →
        (create_monthly_mask a b).time.getD i ⟨0, 0, 0⟩ =
          ⟨(ofTotalMonths (totalMonths a + i)).year,
            (ofTotalMonths (totalMonths a + i)).month, 15⟩) ∧
    ((∀ i j k, (create_monthly_mask a b).data i j k = 0) ∧
      (∀ i j k, (create_monthly_mask2 a b).data i j k = 0)) := by
  have hb360 : ∀ i : ℕ, i < 360 → i < (((360 : ℚ) - 1 / 2) / 1).ceil.toNat := by
    intro i hi
    norm_num [Rat.ceil]
    omega
  have hb360b : ∀ i : ℕ, i < 360 → i < (((180 : ℚ) - -(359 / 2)) / 1).ceil.toNat := by
    intro i hi
    norm_num [Rat.ceil]
    omega
  have hb180 : ∀ i : ℕ, i < 180 → i < (((90 : ℚ) - -(179 / 2)) / 1).ceil.toNat := by
    intro i hi
    norm_num [Rat.ceil]
    omega
  have hlon1 : ∀ i, i < 360 → (create_monthly_mask a b).lon.getD i 0 = 1 / 2 + i := by
    intro i hi
    simp only [create_monthly_mask]
    rw [arange_getD _ _ _ i (hb360 i hi), mul_one]
  have hlon2 : ∀ i, i < 360 → (create_monthly_mask2 a b).lon.getD i 0 = -(359 / 2) + i := by
    intro i hi
    simp only [create_monthly_mask2]
    rw [arange_getD _ _ _ i (hb360b i hi), mul_one]
  have hlat1 : ∀ i, i < 180 → (create_monthly_mask a b).lat.getD i 0 = -(179 / 2) + i := by
    intro i hi
    simp only [create_monthly_mask]
    rw [arange_getD _ _ _ i (hb180 i hi), mul_one]
  refine ⟨⟨?_, hlon1, ?_⟩, ⟨?_, hlon2, ?_⟩, ⟨?_, rfl, hlat1, ?_⟩, ⟨?_, rfl, ?_⟩, fun _ _ _ => rfl, fun _ _ _ => rfl⟩
  · simp only [create_monthly_mask]
    rw [arange_length]
    norm_num [Rat.ceil]
    rfl
  · intro i hi
    rw [hlon1 i (by omega), hlon1 (i + 1) (by omega)]
    push_cast
    linarith
  · simp only [create_monthly_mask2]
    rw [arange_length]
    norm_num [Rat.ceil]
    rfl
  · intro i hi
    rw [hlon2 i (by omega), hlon2 (i + 1) (by omega)]
    push_cast
    linarith
  · simp only [create_monthly_mask]
    rw [arange_length]
    norm_num [Rat.ceil]
    rfl
  · intro i hi
    rw [hlat1 i (by omega), hlat1 (i + 1) (by omega)]
    push_cast
    linarith
  · simp only [create_monthly_mask]
    rw [List.length_map, dateRangeMS_length a b hab]
  · intro i hi
    simp only [create_monthly_mask]
    rw [List.getD_eq_getElem?_getD, List.getElem?_map, dateRangeMS_getElem a b i hab hi]
    simp [addDays_14_first]

/-- Witness for `C7_monthly_mask`: the range January 2000 to March 2000. -/
theorem C7_monthly_mask_witness :
    totalMonths ⟨2000, 1⟩ ≤ totalMonths ⟨2000, 3⟩ ∧
    (((create_monthly_mask ⟨2000, 1⟩ ⟨2000, 3⟩).lon.length = 360 ∧
      (∀ i, i < 360 → (create_monthly_mask ⟨2000, 1⟩ ⟨2000, 3⟩).lon.getD i 0 = 1 / 2 + i) ∧
      (∀ i, i + 1 < 360 → (create_monthly_mask ⟨2000, 1⟩ ⟨2000, 3⟩).lon.getD i 0
        < (create_monthly_mask ⟨2000, 1⟩ ⟨2000, 3⟩).lon.getD (i + 1) 0)) ∧
    ((create_monthly_mask2 ⟨2000, 1⟩ ⟨2000, 3⟩).lon.length = 360 ∧
      (∀ i, i < 360 → (create_monthly_mask2 ⟨2000, 1⟩ ⟨2000, 3⟩).lon.getD i 0 = -(359 / 2) + i) ∧
      (∀ i, i + 1 < 360 → (create_monthly_mask2 ⟨2000, 1⟩ ⟨2000, 3⟩).lon.getD i 0
        < (create_monthly_mask2 ⟨2000, 1⟩ ⟨2000, 3⟩).lon.getD (i + 1) 0)) ∧
    ((create_monthly_mask ⟨2000, 1⟩ ⟨2000, 3⟩).lat.length = 180 ∧
      (create_monthly_mask2 ⟨2000, 1⟩ ⟨2000, 3⟩).lat = (create_monthly_mask ⟨2000, 1⟩ ⟨2000, 3⟩).lat ∧
      (∀ i, i < 180 → (create_monthly_mask ⟨2000, 1⟩ ⟨2000, 3⟩).lat.getD i 0 = -(179 / 2) + i) ∧
      (∀ i, i + 1 < 180 → (create_monthly_mask ⟨2000, 1⟩ ⟨2000, 3⟩).lat.getD i 0
        < (create_monthly_mask ⟨2000, 1⟩ ⟨2000, 3⟩).lat.getD (i + 1) 0)) ∧
    ((create_monthly_mask ⟨2000, 1⟩ ⟨2000, 3⟩).time.length
        = totalMonths ⟨2000, 3⟩ - totalMonths ⟨2000, 1⟩ + 1 ∧
      (create_monthly_mask2 ⟨2000, 1⟩ ⟨2000, 3⟩).time = (create_monthly_mask ⟨2000, 1⟩ ⟨2000, 3⟩).time ∧
      ∀ i, i < totalMonths ⟨2000, 3⟩ - totalMonths ⟨2000, 1⟩ + 1 →
        (create_monthly_mask ⟨2000, 1⟩ ⟨2000, 3⟩).time.getD i ⟨0, 0, 0⟩ =
          ⟨(ofTotalMonths (totalMonths ⟨2000, 1⟩ + i)).year,
            (ofTotalMonths (totalMonths ⟨2000, 1⟩ + i)).month, 15⟩) ∧
    ((∀ i j k, (create_monthly_mask ⟨2000, 1⟩ ⟨2000, 3⟩).data i j k = 0) ∧
      (∀ i j k, (create_monthly_mask2 ⟨2000, 1⟩ ⟨2000, 3⟩).data i j k = 0))) :=
  ⟨by norm_num [totalMonths], C7_monthly_mask ⟨2000, 1⟩ ⟨2000, 3⟩ (by norm_num [totalMonths])⟩

/-! ### GLODAP.py: get_GLODAP (lines 38-122) and process_GLODAP (lines 129-193)

One CSV row is a record over the touched columns; measurement and flag
columns are `Option ℚ` (`none` is `NaN`/`-9999`-replaced missing);
identifiers, date parts and position are plain. -/

structure Row where
  cruise : ℕ := 0
  station : ℕ := 0
  cast : ℕ := 0
  year : ℕ := 2000
  month : ℕ := 6
  day : ℕ := 15
  hour : ℕ := 0
  latitude : ℚ := 0
  longitude : ℚ := 0
  depth : ℚ := 0
  phtsinsitutp : Option ℚ := some 8
  tco2 : Option ℚ := some 2000
  talk : Option ℚ := some 2300
  temperature : Option ℚ := some 15
  salinity : Option ℚ := some 35
  pressure : Option ℚ := some 1
  phosphate : Option ℚ := some 1
  silicate : Option ℚ := some 1
  phtsinsitutpf : Option ℚ := some 2
  tco2f : Option ℚ := some 2
  talkf : Option ℚ := some 2
  salinityf : Option ℚ := some 2
  phosphatef : Option ℚ := some 2
  silicatef : Option ℚ := some 2
  deriving DecidableEq, Repr

/-- The flag filter of `get_GLODAP` (lines 88-93): for each of the six
(value, flag) column pairs, the value becomes `NaN` wherever the flag
differs from the good sentinel `2` (a `NaN` flag also differs from 2). -/
def qualityFilter (r : Row) : Row :=
  { r with
    phtsinsitutp := if r.phtsinsitutpf ≠ some 2 then none else r.phtsinsitutp
    tco2 := if r.tco2f ≠ some 2 then none else r.tco2
    talk := if r.talkf ≠ some 2 then none else r.talk
    salinity := if r.salinityf ≠ some 2 then none else r.salinity
    phosphate := if r.phosphatef ≠ some 2 then none else r.phosphate
    silicate := if r.silicatef ≠ some 2 then none else r.silicate }

/-- Presence of the eight variables required downstream (the dropna
subsets of lines 101-102 and 147-149). -/
def required8 (r : Row) : Bool :=
  r.phtsinsitutp.isSome && r.tco2.isSome && r.talk.isSome &&
  r.temperature.isSome && r.salinity.isSome && r.pressure.isSome &&
  r.silicate.isSome && r.phosphate.isSome

/-- The quality-filter and dropna stage of `get_GLODAP` (lines 85-102). -/
def get_GLODAP_clean (rows : List Row) : List Row :=
  (rows.map qualityFilter).filter required8

/-- Longitude normalization from -180/180 to 0/360 (lines 152-160). -/
def lon0360 (x : ℚ) : ℚ := if x < 0 then x + 360 else x

/-- The explicit invalid-date filter of `process_GLODAP` (line 139): only
the one impossible date April 31 is dropped. -/
def dropApr31 (rows : List Row) : List Row :=
  rows.filter fun r => !(r.month == 4 && r.day == 31)

/-- A calendar date `pd.to_datetime` (line 144) accepts; it raises a
fatal error on any other (year, month, day). -/
def validDate (y m d : ℕ) : Bool :=
  1 ≤ m && m ≤ 12 && 1 ≤ d && d ≤ daysInMonth y m

/-- The `['cruise', 'station', 'cast']` grouping key of line 181. -/
def profileKey (r : Row) : ℕ × ℕ × ℕ := (r.cruise, r.station, r.cast)

/-- A left scan for the first row of minimal depth, i.e. `idxmin`. -/
def firstMinDepth (cur : Row) : List Row → Row
  | [] => cur
  | r :: rs => firstMinDepth (if r.depth < cur.depth then r else cur) rs

def argminDepth : List Row → Option Row
  | [] => none
  | r :: rs => some (firstMinDepth r rs)

/-- `gd.loc[gd.groupby(['cruise','station','cast'])['depth'].idxmin()]`
(line 181): one row per observed profile key, the first row of minimal
depth within the profile. -/
def surfacePick (rows : List Row) : List Row :=
  ((rows.map profileKey).dedup).filterMap fun k =>
    argminDepth (rows.filter fun r => decide (profileKey r = k))

/-- The surface selection of `process_GLODAP`: the minimum-depth row of
each profile, kept only when its depth is at most the surface threshold
(`gd_sub.where(gd_sub['depth'] <= surface_depth).dropna()`, line 190;
the threshold parameter defaults to 20). -/
def surfaceRows (rows : List Row) (thr : ℚ) : List Row :=
  (surfacePick rows).filter fun r => decide (r.depth ≤ thr)

/-- One row of the saved surface product (line 184). -/
structure OutRow where
  time : Date
  lat : ℚ
  lon : ℚ
  depth : ℚ
  spco2 : ℚ
  deriving DecidableEq, Repr

/-- `process_GLODAP(fl, surface_depth)` (lines 129-193).  The carbon
chemistry solver `cb.Csys` is an external pure collaborator, abstracted
as the injected function `pco2Of`; `pd.to_datetime` aborting on a
remaining invalid date is `Except.error`.  The column selection of line
184 commutes with the depth filter of line 190 (both keep `depth`), so it
is applied after the filter here. -/
def process_GLODAP (pco2Of : Row → ℚ) (rows : List Row) (surface_depth : ℚ) :
    Except String (List OutRow) :=
  if (dropApr31 rows).all (fun r => validDate r.year r.month r.day) then
    Except.ok
      ((surfaceRows ((dropApr31 rows).filter required8) surface_depth).map fun r =>
        { time := ⟨r.year, r.month, r.day⟩, lat := r.latitude,
          lon := lon0360 r.longitude, depth := r.depth, spco2 := pco2Of r })
  else Except.error "to_datetime: invalid date"

theorem firstMinDepth_mem : ∀ (rs : List Row) (cur : Row),
    firstMinDepth cur rs ∈ cur :: rs := by
  intro rs
  induction rs with
  | nil =>
    intro cur
    rw [firstMinDepth]
    exact List.mem_singleton_self cur
  | cons r rs ih =>
    intro cur
    rw [firstMinDepth]
    rcases List.mem_cons.mp (ih (if r.depth < cur.depth then r else cur)) with h1 | h1
    · rw [h1]
      split_ifs
      · exact List.mem_cons_of_mem cur (List.mem_cons_self r rs)
      · exact List.mem_cons_self cur (r :: rs)
    · exact List.mem_cons_of_mem cur (List.mem_cons_of_mem r h1)

theorem firstMinDepth_le : ∀ (rs : List Row) (cur : Row) (p : Row),
    p ∈ cur :: rs → (firstMinDepth cur rs).depth ≤ p.depth := by
  intro rs
  induction rs with
  | nil =>
    intro cur p hp
    rw [firstMinDepth]
    rw [List.mem_singleton] at hp
    rw [hp]
  | cons r rs ih =>
    intro cur p hp
    rw [firstMinDepth]
    have hbase : (firstMinDepth (if r.depth < cur.depth then r else cur) rs).depth
        ≤ (if r.depth < cur.depth then r else cur).depth :=
      ih _ _ (List.mem_cons_self _ _)
    rcases List.mem_cons.mp hp with h1 | h1
    · have hc : (if r.depth < cur.depth then r else cur).depth ≤ cur.depth := by
        split_ifs with h
        · exact le_of_lt h
        · exact le_refl _
      rw [h1]
      linarith
    · rcases List.mem_cons.mp h1 with h2 | h2
      · have hc : (if r.depth < cur.depth then r else cur).depth ≤ r.depth := by
          split_ifs with h
          · exact le_refl _
          · exact le_of_not_lt h
        rw [h2]
        linarith
      · exact ih _ _ (List.mem_cons_of_mem _ h2)

theorem argminDepth_spec (rows : List Row) (r : Row)
    (h : argminDepth rows = some r) :
    r ∈ rows ∧ ∀ p ∈ rows, r.depth ≤ p.depth := by
  cases rows with
  | nil => simp [argminDepth] at h
  | cons q qs =>
    rw [argminDepth] at h
    have hr : r = firstMinDepth q qs := (Option.some.inj h).symm
    subst hr
    exact ⟨firstMinDepth_mem qs q, fun p hp => firstMinDepth_le qs q p hp⟩

theorem surfaceRows_sound (rows : List Row) (thr : ℚ) (r : Row)
    (hr : r ∈ surfaceRows rows thr) :
    r ∈ rows ∧ r.depth ≤ thr ∧
      ∀ p ∈ rows, profileKey p = profileKey r → r.depth ≤ p.depth := by
  rw [surfaceRows, List.mem_filter] at hr
  obtain ⟨hpick, hthr⟩ := hr
  have hthr2 : r.depth ≤ thr := of_decide_eq_true hthr
  rw [surfacePick, List.mem_filterMap] at hpick
  obtain ⟨k, hk, hak⟩ := hpick
  obtain ⟨hmem, hmin⟩ := argminDepth_spec _ r hak
  rw [List.mem_filter] at hmem
  obtain ⟨hrows, hkey⟩ := hmem
  have hkeyr : profileKey r = k := of_decide_eq_true hkey
  refine ⟨hrows, hthr2, fun p hp hpk => ?_⟩
  apply hmin
  rw [List.mem_filter]
  exact ⟨hp, decide_eq_true (by rw [hpk, hkeyr])⟩

/-- A profile of three records at depths 5, 15, 40 (one key). -/
def exRow5 : Row := { cruise := 1, station := 1, cast := 1, depth := 5 }

def exRow15 : Row := { cruise := 1, station := 1, cast := 1, depth := 15 }

def exRow40 : Row := { cruise := 1, station := 1, cast := 1, depth := 40 }

/-- A profile whose minimum depth 35 exceeds the default threshold 20. -/
def exRow35 : Row := { cruise := 2, station := 1, cast := 1, depth := 35 }

def exRow40b : Row := { cruise := 2, station := 1, cast := 1, depth := 40 }

theorem surfaceRows_ex1 : surfaceRows [exRow5, exRow15, exRow40] 20 = [exRow5] := by
  norm_num [surfaceRows, surfacePick, argminDepth, firstMinDepth, profileKey,
    exRow5, exRow15, exRow40, List.dedup, List.filter, List.filterMap]

theorem surfaceRows_ex2 : surfaceRows [exRow35, exRow40b] 20 = [] := by
  norm_num [surfaceRows, surfacePick, argminDepth, firstMinDepth, profileKey,
    exRow35, exRow40b, List.dedup, List.filter, List.filterMap]

/-- C8: every record the surface selection of `process_GLODAP` retains
comes from the input, has minimal depth within its (cruise, station,
cast) profile, and depth at most the threshold; a profile all of whose
records are deeper than the threshold contributes nothing.  A profile
with depths `[5, 15, 40]` and threshold 20 keeps exactly the depth-5
record, and a profile with minimum depth 35 is dropped entirely. -/
theorem C8_surface_selection (rows : List Row) (thr : ℚ) (r : Row)
    (hr : r ∈ surfaceRows rows thr) :
    (r ∈ rows ∧ r.depth ≤ thr ∧
      (∀ p ∈ rows, profileKey p = profileKey r → r.depth ≤ p.depth) ∧
      ∀ k, (∀ p ∈ rows, profileKey p = k → thr < p.depth) → profileKey r ≠ k) ∧
    surfaceRows [exRow5, exRow15, exRow40] 20 = [exRow5] ∧
    surfaceRows [exRow35, exRow40b] 20 = [] := by
  obtain ⟨hmem, hthr, hmin⟩ := surfaceRows_sound rows thr r hr
  refine ⟨⟨hmem, hthr, hmin, fun k hdeep hk => ?_⟩, surfaceRows_ex1, surfaceRows_ex2⟩
  have := hdeep r hmem hk
  linarith

/-- Witness for `C8_surface_selection`: the depth-5 record of the example
profile. -/
theorem C8_surface_selection_witness :
    (exRow5 ∈ surfaceRows [exRow5, exRow15, exRow40] 20) ∧
    ((exRow5 ∈ [exRow5, exRow15, exRow40] ∧ exRow5.depth ≤ 20 ∧
      (∀ p ∈ [exRow5, exRow15, exRow40],
        profileKey p = profileKey exRow5 → exRow5.depth ≤ p.depth) ∧
      ∀ k, (∀ p ∈ [exRow5, exRow15, exRow40], profileKey p = k → 20 < p.depth) →
        profileKey exRow5 ≠ k) ∧
      surfaceRows [exRow5, exRow15, exRow40] 20 = [exRow5] ∧
      surfaceRows [exRow35, exRow40b] 20 = []) :=
  have hr : exRow5 ∈ surfaceRows [exRow5, exRow15, exRow40] 20 := by
    rw [surfaceRows_ex1]
    exact List.mem_singleton_self _
  ⟨hr, C8_surface_selection [exRow5, exRow15, exRow40] 20 exRow5 hr⟩

/-- Three records carrying flag values 2, 2, 4 and measurement values
10, 20, 30 in the (tco2, tco2f) pair. -/
def exFlagRow1 : Row := { tco2 := some 10, tco2f := some 2 }

def exFlagRow2 : Row := { tco2 := some 20, tco2f := some 2 }

def exFlagRow3 : Row := { tco2 := some 30, tco2f := some 4 }

/-- C9: for each (value, flag) pair of the quality filter, a value whose
flag equals the good sentinel 2 is left unchanged and a value whose flag
differs from 2 becomes missing; afterwards every record missing any of
the eight required variables is dropped.  Flags `[2, 2, 4]` over values
`[10, 20, 30]` leave the first two intact and blank the third. -/
theorem C9_quality_filter (rows : List Row) (r : Row) :
    ((r.phtsinsitutpf = some 2 → (qualityFilter r).phtsinsitutp = r.phtsinsitutp) ∧
      (r.phtsinsitutpf ≠ some 2 → (qualityFilter r).phtsinsitutp = none)) ∧
    ((r.tco2f = some 2 → (qualityFilter r).tco2 = r.tco2) ∧
      (r.tco2f ≠ some 2 → (qualityFilter r).tco2 = none)) ∧
    ((r.talkf = some 2 → (qualityFilter r).talk = r.talk) ∧
      (r.talkf ≠ some 2 → (qualityFilter r).talk = none)) ∧
    ((r.salinityf = some 2 → (qualityFilter r).salinity = r.salinity) ∧
      (r.salinityf ≠ some 2 → (qualityFilter r).salinity = none)) ∧
    ((r.phosphatef = some 2 → (qualityFilter r).phosphate = r.phosphate) ∧
      (r.phosphatef ≠ some 2 → (qualityFilter r).phosphate = none)) ∧
    ((r.silicatef = some 2 → (qualityFilter r).silicate = r.silicate) ∧
      (r.silicatef ≠ some 2 → (qualityFilter r).silicate = none)) ∧
    (∀ s ∈ get_GLODAP_clean rows, required8 s = true) ∧
    ([exFlagRow1, exFlagRow2, exFlagRow3].map fun p => (qualityFilter p).tco2)
      = [some 10, some 20, none] := by
  refine ⟨⟨?_, ?_⟩, ⟨?_, ?_⟩, ⟨?_, ?_⟩, ⟨?_, ?_⟩, ⟨?_, ?_⟩, ⟨?_, ?_⟩, ?_, ?_⟩
  all_goals first
    | (intro h; simp [qualityFilter, h])
    | skip
  · intro s hs
    rw [get_GLODAP_clean, List.mem_filter] at hs
    exact hs.2
  · norm_num [qualityFilter, exFlagRow1, exFlagRow2, exFlagRow3]

/-- Witness for `C9_quality_filter` at the example rows. -/
theorem C9_quality_filter_witness :
    ((exFlagRow3.phtsinsitutpf = some 2 →
        (qualityFilter exFlagRow3).phtsinsitutp = exFlagRow3.phtsinsitutp) ∧
      (exFlagRow3.phtsinsitutpf ≠ some 2 → (qualityFilter exFlagRow3).phtsinsitutp = none)) ∧
    ((exFlagRow3.tco2f = some 2 → (qualityFilter exFlagRow3).tco2 = exFlagRow3.tco2) ∧
      (exFlagRow3.tco2f ≠ some 2 → (qualityFilter exFlagRow3).tco2 = none)) ∧
    ((exFlagRow3.talkf = some 2 → (qualityFilter exFlagRow3).talk = exFlagRow3.talk) ∧
      (exFlagRow3.talkf ≠ some 2 → (qualityFilter exFlagRow3).talk = none)) ∧
    ((exFlagRow3.salinityf = some 2 → (qualityFilter exFlagRow3).salinity = exFlagRow3.salinity) ∧
      (exFlagRow3.salinityf ≠ some 2 → (qualityFilter exFlagRow3).salinity = none)) ∧
    ((exFlagRow3.phosphatef = some 2 →
        (qualityFilter exFlagRow3).phosphate = exFlagRow3.phosphate) ∧
      (exFlagRow3.phosphatef ≠ some 2 → (qualityFilter exFlagRow3).phosphate = none)) ∧
    ((exFlagRow3.silicatef = some 2 → (qualityFilter exFlagRow3).silicate = exFlagRow3.silicate) ∧
      (exFlagRow3.silicatef ≠ some 2 → (qualityFilter exFlagRow3).silicate = none)) ∧
    (∀ s ∈ get_GLODAP_clean [exFlagRow1, exFlagRow2, exFlagRow3], required8 s = true) ∧
    ([exFlagRow1, exFlagRow2, exFlagRow3].map fun p => (qualityFilter p).tco2)
      = [some 10, some 20, none] :=
  C9_quality_filter [exFlagRow1, exFlagRow2, exFlagRow3] exFlagRow3

/-- The impossible date April 31 present in cruise 270 of the data. -/
def apr31Row : Row := { month := 4, day := 31 }

/-- A record dated February 30, 2001: an invalid calendar date that is
not April 31. -/
def feb30Row : Row := { year := 2001, month := 2, day := 30 }

/-- C10 counterexample: the pre-filter of `process_GLODAP` drops only
April 31, so a record dated February 30 reaches timestamp construction,
which fails on it: not every invalid calendar date is dropped before
timestamp construction. -/
theorem C10_counterexample :
    dropApr31 [feb30Row] = [feb30Row] ∧
    validDate feb30Row.year feb30Row.month feb30Row.day = false ∧
    process_GLODAP (fun _ => 0) [feb30Row] 20
      = Except.error "to_datetime: invalid date" := by
  have h1 : dropApr31 [feb30Row] = [feb30Row] := by
    simp [dropApr31, feb30Row, List.filter]
  have h2 : validDate feb30Row.year feb30Row.month feb30Row.day = false := by
    simp [validDate, feb30Row, daysInMonth, isLeap]
  refine ⟨h1, h2, ?_⟩
  rw [process_GLODAP, if_neg]
  rw [h1]
  simp [h2]

/-- C10 (amended): `process_GLODAP` drops exactly the records dated
April 31 before timestamp construction; a record bearing any other
invalid calendar date is not pre-filtered, and timestamp construction
aborts the run on it. -/
theorem C10_apr31_only (rows : List Row) (pco2Of : Row → ℚ) (thr : ℚ) :
    (∀ r ∈ dropApr31 rows, ¬(r.month = 4 ∧ r.day = 31)) ∧
    (∀ r ∈ rows, ¬(r.month = 4 ∧ r.day = 31) → r ∈ dropApr31 rows) ∧
    ((∀ r ∈ dropApr31 rows, validDate r.year r.month r.day = true) →
      ∃ out, process_GLODAP pco2Of rows thr = Except.ok out) ∧
    ((∃ r ∈ dropApr31 rows, validDate r.year r.month r.day = false) →
      process_GLODAP pco2Of rows thr = Except.error "to_datetime: invalid date") := by
  refine ⟨?_, ?_, ?_, ?_⟩
  · intro r hr hcon
    have hp := (List.mem_filter.mp hr).2
    simp only [hcon.1, hcon.2, Bool.not_eq_true'] at hp
    simp at hp
  · intro r hr h
    rw [dropApr31, List.mem_filter]
    refine ⟨hr, ?_⟩
    simp only [Bool.not_eq_true', Bool.and_eq_false_iff]
    rcases Nat.decEq r.month 4 with hm | hm
    · left
      simpa using hm
    · right
      have hd : r.day ≠ 31 := fun hd => h ⟨hm, hd⟩
      simpa using hd
  · intro h
    have hall : (dropApr31 rows).all (fun r => validDate r.year r.month r.day) = true :=
      List.all_eq_true.mpr h
    rw [process_GLODAP, if_pos hall]
    exact ⟨_, rfl⟩
  · intro h
    obtain ⟨r, hr, hbad⟩ := h
    rw [process_GLODAP, if_neg]
    intro hall
    have := List.all_eq_true.mp hall r hr
    rw [hbad] at this
    exact Bool.false_ne_true this

/-- Witness for `C10_apr31_only`: a single April-31 record. -/
theorem C10_apr31_only_witness :
    (∀ r ∈ dropApr31 [apr31Row], ¬(r.month = 4 ∧ r.day = 31)) ∧
    (∀ r ∈ [apr31Row], ¬(r.month = 4 ∧ r.day = 31) → r ∈ dropApr31 [apr31Row]) ∧
    ((∀ r ∈ dropApr31 [apr31Row], validDate r.year r.month r.day = true) →
      ∃ out, process_GLODAP (fun _ => 0) [apr31Row] 20 = Except.ok out) ∧
    ((∃ r ∈ dropApr31 [apr31Row], validDate r.year r.month r.day = false) →
      process_GLODAP (fun _ => 0) [apr31Row] 20
        = Except.error "to_datetime: invalid date") :=
  C10_apr31_only [apr31Row] (fun _ => 0) 20
